import Mathlib

/-!
Shallow embedding of the DVD backup engine of `pslipstream/dvd.py` (class
`Dvd`): the title-map builder `get_vob_lbas`, the boundary-aware sector
read `Dvd.read`, and the full-disc backup `Dvd.create_backup`.

Python integers are modelled as `Int`.  The external libdvdcss session
(the `pydvdcss` collaborator) is modelled as a deterministic `Device`
record supplying the results of its `seek` and `read` primitives together
with its current position.  Raised `IOError`s are modelled as `Except`
errors carrying the data that the Python message strings are formatted
from.  The filesystem corner touched by `create_backup` (the temporary
`<volume>.ISO.tmp` file and the final `<volume>.ISO` file) is modelled by
the two-slot record `FS`.
-/

namespace Slipstream

/-- Constant `NOFLAGS` of the pydvdcss collaborator (libdvdcss
`DVDCSS_NOFLAGS`). -/
def NOFLAGS : Int := 0

/-- Constant `READ_DECRYPT` of the pydvdcss collaborator (libdvdcss bit 0). -/
def READ_DECRYPT : Int := 1

/-- Constant `SEEK_MPEG` of the pydvdcss collaborator (libdvdcss bit 0). -/
def SEEK_MPEG : Int := 1

/-- Constant `SEEK_KEY` of the pydvdcss collaborator (libdvdcss bit 1). -/
def SEEK_KEY : Int := 2

/-- Constant `BLOCK_BUFFER` of the pydvdcss collaborator: the maximum
number of sectors per read call. -/
def BLOCK_BUFFER : Int := 128

/-- Model of the libdvdcss device session (the `self.dvdcss` object):
a deterministic sector source.  `seekLand lba flags` is the LBA the device
reports landing at for `seek(lba, flags)`; `readRet pos n flags` is the
sector count reported by `read(n, flags)` issued at position `pos`;
`readBuf pos n flags` is the data placed in the device buffer by that
read. -/
structure Device where
  pos : Int
  seekLand : Int → Int → Int
  readRet : Int → Int → Int → Int
  readBuf : Int → Int → Int → List Int

/-- The state of a `Dvd` instance that `read` uses: `self.reader_position`
and `self.vob_lba_offsets` (a list of `(lba, size)` pairs). -/
structure Dvd where
  reader_position : Int
  vob_lba_offsets : List (Int × Int)
deriving DecidableEq

/-- State carried through the `for vob_lba_offset in self.vob_lba_offsets`
loop of `Dvd.read` (dvd.py lines 308-336): the (clipped) sector count and
the three booleans. -/
structure ScanState where
  sectors : Int
  needToSeek : Bool
  enteredTitle : Bool
  inTitle : Bool
deriving DecidableEq

/-- One iteration of the title-scan loop of `Dvd.read` (dvd.py lines
315-336), for the region `r = (titleStart, length)`: mark entering when
`titleStart == first_lba`, clip the count at the region start, then at the
region end, then mark in-title when the (currently clipped) range lies
within the region. -/
def scanStep (first_lba : Int) (st : ScanState) (r : Int × Int) : ScanState :=
  let titleStart := r.1
  let titleEnd := titleStart + r.2 - 1
  let needToSeek := if titleStart = first_lba then true else st.needToSeek
  let enteredTitle := if titleStart = first_lba then true else st.enteredTitle
  let inTitle0 := if titleStart = first_lba then true else st.inTitle
  let s1 := if first_lba < titleStart ∧ first_lba + st.sectors > titleStart
    then titleStart - first_lba else st.sectors
  let s2 := if first_lba < titleEnd ∧ first_lba + s1 > titleEnd
    then titleEnd - first_lba + 1 else s1
  let inTitle := if first_lba ≥ titleStart ∧ first_lba + (s2 - 1) ≤ titleEnd
    then true else inTitle0
  ⟨s2, needToSeek, enteredTitle, inTitle⟩

/-- The whole title-scan loop of `Dvd.read` (dvd.py lines 308-336),
starting from the requested count and the initial
`needToSeek = (first_lba != self.reader_position or first_lba == 0)`
passed in as `b`. -/
def scanTitles (offsets : List (Int × Int)) (first_lba sectors : Int) (b : Bool) : ScanState :=
  offsets.foldl (scanStep first_lba) ⟨sectors, b, false, false⟩

/-- Errors raised as `IOError` by the Python code, carrying the data the
message strings are formatted from. `keyCrack file lba` is the
`get_vob_lbas` failure naming the VOB's basename and its sector (the
re-raise in `create_backup` only appends explanatory text, so it is
modelled by the same value). -/
inductive DvdError where
  | keyCrack (file : String) (lba : Int)
  | seekMismatch (wanted landed : Int)
  | shortRead (lo hi : Int)
  | unexpectedRead
deriving DecidableEq

/-- Successful outcome of `Dvd.read`: the returned count, the device
buffer contents, and the updated `Dvd` and `Device` states. -/
structure ReadOk where
  ret : Int
  buf : List Int
  dvd : Dvd
  dev : Device

/-- The device calls issued during one `Dvd.read`: the `(lba, flags)` of
the seek, if one was issued, and the `(count, flags)` of the read, if it
was reached. -/
structure ReadTrace where
  seekIssued : Option (Int × Int)
  readIssued : Option (Int × Int)
deriving DecidableEq

/-- Tail of `Dvd.read` after the optional seek (dvd.py lines 350-359):
issue the device read with `READ_DECRYPT` when the scan marked the range
in-title, fail on a count mismatch, else advance `reader_position` by the
returned count. -/
def readIssue (tr : ReadTrace) (dvd : Dvd) (dev : Device) (st : ScanState)
    (first_lba : Int) : ReadTrace × Except DvdError ReadOk :=
  let flags := if st.inTitle then READ_DECRYPT else NOFLAGS
  let ret := dev.readRet dev.pos st.sectors flags
  let buf := dev.readBuf dev.pos st.sectors flags
  let res : Except DvdError ReadOk :=
    if ret ≠ st.sectors then .error (.shortRead first_lba (first_lba + st.sectors))
    else .ok ⟨ret, buf, { dvd with reader_position := dvd.reader_position + ret },
      { dev with pos := dev.pos + ret }⟩
  (⟨tr.seekIssued, some (st.sectors, flags)⟩, res)

/-- The `needToSeek` value computed before the title scan of `Dvd.read`
(dvd.py line 309): `first_lba != self.reader_position or first_lba == 0`. -/
def initialSeek (dvd : Dvd) (first_lba : Int) : Bool :=
  decide (first_lba ≠ dvd.reader_position ∨ first_lba = 0)

/-- `Dvd.read(self, first_lba, sectors)` (dvd.py lines 299-359): run the
title scan, seek if needed (`SEEK_KEY` when entering a title, `SEEK_MPEG`
when in a title, no flags otherwise) and fail if the device lands
elsewhere, then issue the read. -/
def Dvd.read (dvd : Dvd) (dev : Device) (first_lba sectors : Int) :
    ReadTrace × Except DvdError ReadOk :=
  let st := scanTitles dvd.vob_lba_offsets first_lba sectors (initialSeek dvd first_lba)
  if st.needToSeek then
    let flags := if st.enteredTitle then SEEK_KEY
      else if st.inTitle then SEEK_MPEG else NOFLAGS
    let landed := dev.seekLand first_lba flags
    if landed ≠ first_lba then
      (⟨some (first_lba, flags), none⟩, .error (.seekMismatch first_lba landed))
    else
      readIssue ⟨some (first_lba, flags), none⟩ { dvd with reader_position := landed }
        { dev with pos := landed } st first_lba
  else
    readIssue ⟨none, none⟩ dvd dev st first_lba

/-- Python `os.path.basename`: the part of the path after the last `/`. -/
def basename (p : String) : String :=
  String.mk ((p.toList.reverse.takeWhile (fun c => c ≠ '/')).reverse)

/-- Python `os.path.splitext(p)[-1]`: the extension of the final path
component; leading dots of the component do not start an extension. -/
def extname (p : String) : String :=
  let b := (basename p).toList
  let rest := b.dropWhile (fun c => c = '.')
  if rest.contains '.' then
    String.mk ('.' :: (rest.reverse.takeWhile (fun c => c ≠ '.')).reverse)
  else ""

/-- `Dvd.get_vob_lbas(self, crack_keys)` (dvd.py lines 197-221).
`entries` is the `(path, lba, size)` stream that `get_files("/VIDEO_TS")`
yields.  Non-`.VOB` entries are skipped; with `crack_keys` each VOB gets a
`SEEK_KEY` seek which must land exactly at its LBA, else the build aborts
with an error naming the file's basename and the sector. -/
def get_vob_lbas (dev : Device) (entries : List (String × Int × Int)) (crack_keys : Bool) :
    Except DvdError (Device × List (Int × Int)) :=
  match entries with
  | [] => .ok (dev, [])
  | (vob, lba, size) :: rest =>
    if extname vob ≠ ".VOB" then get_vob_lbas dev rest crack_keys
    else if crack_keys then
      let landed := dev.seekLand lba SEEK_KEY
      if lba = landed then
        match get_vob_lbas { dev with pos := landed } rest crack_keys with
        | .ok (dev2, tl) => .ok (dev2, (lba, size) :: tl)
        | .error e => .error e
      else .error (.keyCrack (basename vob) lba)
    else
      match get_vob_lbas dev rest crack_keys with
      | .ok (dev2, tl) => .ok (dev2, (lba, size) :: tl)
      | .error e => .error e

/-- The filesystem corner touched by `create_backup`: the contents under
the temporary name `<volume>.ISO.tmp` and under the final name
`<volume>.ISO` (`none` = no such file). -/
structure FS where
  tmp : Option (List Int)
  final : Option (List Int)
deriving DecidableEq

/-- The `while current_lba <= last_lba` loop of `Dvd.create_backup`
(dvd.py lines 267-283), with an explicit fuel so the recursion is
structural; `none` means the fuel ran out before the loop finished.
Returns the filesystem, the log of `(first_lba, returned count)` pairs of
the `self.read` calls that succeeded, and either the propagated error or
the final `current_lba` with the final `Dvd`/`Device` states. -/
def backupLoop : Nat → Dvd → Device → Int → Int → FS → List (Int × Int) →
    Option (FS × List (Int × Int) × Except DvdError (Dvd × Device × Int))
  | 0, dvd, dev, current_lba, last_lba, fs, chunks =>
    if current_lba ≤ last_lba then none
    else some (fs, chunks, .ok (dvd, dev, current_lba))
  | fuel + 1, dvd, dev, current_lba, last_lba, fs, chunks =>
    if current_lba ≤ last_lba then
      -- sectors = min(self.dvdcss.BLOCK_BUFFER, last_lba - current_lba + 1)
      match (Dvd.read dvd dev current_lba (min BLOCK_BUFFER (last_lba - current_lba + 1))).2 with
      | .error e => some (fs, chunks, .error e)
      | .ok o =>
        if o.ret < 0 then some (fs, chunks, .error .unexpectedRead)
        else
          backupLoop fuel o.dvd o.dev (current_lba + o.ret) last_lba
            { fs with tmp := fs.tmp.map (fun c => c ++ o.buf) }
            (chunks ++ [(current_lba, o.ret)])
    else some (fs, chunks, .ok (dvd, dev, current_lba))

/-- `Dvd.create_backup(self)` (dvd.py lines 224-297): crack all CSS keys
via `get_vob_lbas(crack_keys=True)` (propagating its error untouched but
for appended text), only then open the temporary sink, run the read loop
from sector 0 to `space_size - 1`, and on success rename the temporary
file onto the final name.  No cleanup of the temporary file happens on an
error path. -/
def Dvd.create_backup (fuel : Nat) (dvd : Dvd) (dev : Device)
    (entries : List (String × Int × Int)) (space_size : Int) (fs : FS) :
    Option (FS × List (Int × Int) × Except DvdError (Dvd × Device × Int)) :=
  let last_lba := space_size - 1
  match get_vob_lbas dev entries true with
  | .error e => some (fs, [], .error e)
  | .ok (dev1, offsets) =>
    match backupLoop fuel { dvd with vob_lba_offsets := offsets } dev1 0 last_lba
      { fs with tmp := some [] } [] with
    | none => none
    | some (fs2, chunks, .error e) => some (fs2, chunks, .error e)
    | some (fs2, chunks, .ok (dvd2, dev2, cur)) =>
      some ({ tmp := none, final := fs2.tmp }, chunks, .ok (dvd2, dev2, cur))

/-- The consumed range `[f, f + c - 1]` lies within the region `r`. -/
def rangeWithin (f c : Int) (r : Int × Int) : Bool :=
  decide (r.1 ≤ f) && decide (f + c - 1 ≤ r.1 + r.2 - 1)

/-- The consumed range `[f, f + c - 1]` is disjoint from the region `r`. -/
def rangeOutside (f c : Int) (r : Int × Int) : Bool :=
  decide (f + c - 1 < r.1) || decide (r.1 + r.2 - 1 < f)

/-- The consumed range `[f, f + c - 1]` lies entirely within one region of
the map or entirely outside all of them. -/
def readHomogeneous (offsets : List (Int × Int)) (f c : Int) : Bool :=
  offsets.any (rangeWithin f c) || offsets.all (rangeOutside f c)

/-- `chunksCover lo chunks hi`: the `(first_lba, count)` chunks tile the
sector range `[lo, hi)` exactly once, in ascending order with no gaps, no
repeats and positive counts. -/
def chunksCover : Int → List (Int × Int) → Int → Bool
  | lo, [], hi => lo = hi
  | lo, (a, c) :: rest, hi => decide (a = lo) && decide (1 ≤ c) && chunksCover (lo + c) rest hi

/-- The title map is sorted ascending by start and pairwise
non-overlapping: each region's end `start + length - 1` is strictly below
the next region's start. -/
def titleMapOrdered : List (Int × Int) → Bool
  | [] => true
  | [_] => true
  | r :: s :: rest => decide (r.1 + r.2 - 1 < s.1) && titleMapOrdered (s :: rest)

/-- A well-behaved device over fixed `contents`: every seek lands exactly
where asked, every read returns the requested count and the `contents` of
the sectors at the current position (the read flags are an argument of
`contents`, so decrypted and raw sector data may differ). -/
def mkDevice (contents : Int → Int → Int) (p : Int) : Device :=
  ⟨p, fun lba _ => lba, fun _ n _ => n,
    fun pos n flags => (List.range n.toNat).map (fun i => contents (pos + i) flags)⟩

/-- A well-behaved device whose sectors all hold `0`. -/
def devOk : Device := mkDevice (fun _ _ => 0) 0

/-- A device whose reads always report `-1` sectors (every read fails). -/
def devBadRead : Device := ⟨0, fun lba _ => lba, fun _ _ _ => -1, fun _ _ _ => []⟩

/-- A device whose seeks always land at sector `999`. -/
def devBadSeek : Device := ⟨5, fun _ _ => 999, fun _ n _ => n, fun _ _ _ => []⟩

/-! ### Properties of the title-scan loop -/

/-- One scan step clips the sector count but never increases it and never
drives it below `1`. -/
theorem scanStep_sectors_bounds (f : Int) (st : ScanState) (r : Int × Int)
    (h : 1 ≤ st.sectors) :
    1 ≤ (scanStep f st r).sectors ∧ (scanStep f st r).sectors ≤ st.sectors := by
  simp only [scanStep]
  split_ifs <;> simp_all <;> omega

/-- The whole scan loop clips the sector count but never increases it and
never drives it below `1`. -/
theorem scanFold_sectors_bounds (f : Int) :
    ∀ (l : List (Int × Int)) (st : ScanState), 1 ≤ st.sectors →
      1 ≤ (l.foldl (scanStep f) st).sectors ∧
        (l.foldl (scanStep f) st).sectors ≤ st.sectors
  | [], st, h => ⟨h, le_refl _⟩
  | r :: rest, st, h => by
    have hs := scanStep_sectors_bounds f st r h
    have ih := scanFold_sectors_bounds f rest (scanStep f st r) hs.1
    simp only [List.foldl_cons]
    exact ⟨ih.1, le_trans ih.2 hs.2⟩

/-- One scan step sets `enteredTitle` exactly when it was already set or
this region starts at `first_lba`. -/
theorem scanStep_enteredTitle (f : Int) (st : ScanState) (r : Int × Int) :
    (scanStep f st r).enteredTitle = (st.enteredTitle || decide (r.1 = f)) := by
  simp only [scanStep]
  by_cases h : r.1 = f <;> simp [h]

/-- One scan step sets `needToSeek` exactly when it was already set or
this region starts at `first_lba`. -/
theorem scanStep_needToSeek (f : Int) (st : ScanState) (r : Int × Int) :
    (scanStep f st r).needToSeek = (st.needToSeek || decide (r.1 = f)) := by
  simp only [scanStep]
  by_cases h : r.1 = f <;> simp [h]

/-- Over the whole scan loop, `enteredTitle` holds exactly when it held
initially or some region starts at `first_lba`. -/
theorem scanFold_enteredTitle (f : Int) :
    ∀ (l : List (Int × Int)) (st : ScanState),
      (l.foldl (scanStep f) st).enteredTitle =
        (st.enteredTitle || l.any (fun r => decide (r.1 = f)))
  | [], st => by simp
  | r :: rest, st => by
    simp only [List.foldl_cons, List.any_cons]
    rw [scanFold_enteredTitle f rest, scanStep_enteredTitle]
    cases st.enteredTitle <;> simp

/-- Over the whole scan loop, `needToSeek` holds exactly when it held
initially or some region starts at `first_lba`. -/
theorem scanFold_needToSeek (f : Int) :
    ∀ (l : List (Int × Int)) (st : ScanState),
      (l.foldl (scanStep f) st).needToSeek =
        (st.needToSeek || l.any (fun r => decide (r.1 = f)))
  | [], st => by simp
  | r :: rest, st => by
    simp only [List.foldl_cons, List.any_cons]
    rw [scanFold_needToSeek f rest, scanStep_needToSeek]
    cases st.needToSeek <;> simp

/-- The `sectors`, `enteredTitle` and `inTitle` outputs of one scan step do
not depend on the `needToSeek` component of the state. -/
theorem scanStep_agree (f : Int) (r : Int × Int) (st st' : ScanState)
    (hs : st.sectors = st'.sectors) (he : st.enteredTitle = st'.enteredTitle)
    (hi : st.inTitle = st'.inTitle) :
    (scanStep f st r).sectors = (scanStep f st' r).sectors ∧
      (scanStep f st r).enteredTitle = (scanStep f st' r).enteredTitle ∧
      (scanStep f st r).inTitle = (scanStep f st' r).inTitle := by
  simp [scanStep, hs, he, hi]

/-- The `sectors`, `enteredTitle` and `inTitle` outputs of the whole scan
loop do not depend on the `needToSeek` component of the initial state. -/
theorem scanFold_agree (f : Int) :
    ∀ (l : List (Int × Int)) (st st' : ScanState),
      st.sectors = st'.sectors → st.enteredTitle = st'.enteredTitle →
      st.inTitle = st'.inTitle →
      (l.foldl (scanStep f) st).sectors = (l.foldl (scanStep f) st').sectors ∧
        (l.foldl (scanStep f) st).enteredTitle = (l.foldl (scanStep f) st').enteredTitle ∧
        (l.foldl (scanStep f) st).inTitle = (l.foldl (scanStep f) st').inTitle
  | [], _, _, hs, he, hi => ⟨hs, he, hi⟩
  | r :: rest, st, st', hs, he, hi => by
    have h1 := scanStep_agree f r st st' hs he hi
    simp only [List.foldl_cons]
    exact scanFold_agree f rest (scanStep f st r) (scanStep f st' r) h1.1 h1.2.1 h1.2.2

/-! ### Properties of `Dvd.read` -/

/-- A successful `readIssue` returns exactly the scan's clipped sector
count and the device data read at the device's position with the
in-title-determined flags. -/
theorem readIssue_ok (tr : ReadTrace) (dvd : Dvd) (dev : Device) (st : ScanState)
    (first_lba : Int) (o : ReadOk)
    (h : (readIssue tr dvd dev st first_lba).2 = .ok o) :
    o.ret = st.sectors ∧
      o.buf = dev.readBuf dev.pos st.sectors
        (if st.inTitle then READ_DECRYPT else NOFLAGS) := by
  dsimp only [readIssue] at h
  by_cases hr : dev.readRet dev.pos st.sectors
      (if st.inTitle = true then READ_DECRYPT else NOFLAGS) ≠ st.sectors
  · rw [if_pos hr] at h
    exact absurd h (by simp)
  · rw [if_neg hr] at h
    simp only [Except.ok.injEq] at h
    rw [← h]
    exact ⟨not_ne_iff.mp hr, rfl⟩

/-- A successful `Dvd.read` returns exactly the clipped sector count
computed by the title scan. -/
theorem Dvd.read_ok_ret (dvd : Dvd) (dev : Device) (f s : Int) (o : ReadOk)
    (h : (Dvd.read dvd dev f s).2 = .ok o) :
    o.ret = (scanTitles dvd.vob_lba_offsets f s (initialSeek dvd f)).sectors := by
  dsimp only [Dvd.read] at h
  by_cases hseek : (scanTitles dvd.vob_lba_offsets f s (initialSeek dvd f)).needToSeek = true
  · rw [if_pos hseek] at h
    by_cases hl : dev.seekLand f
        (if (scanTitles dvd.vob_lba_offsets f s (initialSeek dvd f)).enteredTitle = true
          then SEEK_KEY
          else if (scanTitles dvd.vob_lba_offsets f s (initialSeek dvd f)).inTitle = true
          then SEEK_MPEG else NOFLAGS) ≠ f
    · rw [if_pos hl] at h
      exact absurd h (by simp)
    · rw [if_neg hl] at h
      exact (readIssue_ok _ _ _ _ _ _ h).1
  · rw [if_neg hseek] at h
    exact (readIssue_ok _ _ _ _ _ _ h).1

/-- A successful `Dvd.read` whose device position agreed with
`reader_position` beforehand reads its data at `first_lba`: the buffer is
the device data at `f` for the clipped count with the
in-title-determined flags. -/
theorem Dvd.read_ok_buf (dvd : Dvd) (dev : Device) (f s : Int) (o : ReadOk)
    (hpos : dev.pos = dvd.reader_position)
    (h : (Dvd.read dvd dev f s).2 = .ok o) :
    o.buf = dev.readBuf f
      (scanTitles dvd.vob_lba_offsets f s (initialSeek dvd f)).sectors
      (if (scanTitles dvd.vob_lba_offsets f s (initialSeek dvd f)).inTitle
        then READ_DECRYPT else NOFLAGS) := by
  dsimp only [Dvd.read] at h
  by_cases hseek : (scanTitles dvd.vob_lba_offsets f s (initialSeek dvd f)).needToSeek = true
  · rw [if_pos hseek] at h
    by_cases hl : dev.seekLand f
        (if (scanTitles dvd.vob_lba_offsets f s (initialSeek dvd f)).enteredTitle = true
          then SEEK_KEY
          else if (scanTitles dvd.vob_lba_offsets f s (initialSeek dvd f)).inTitle = true
          then SEEK_MPEG else NOFLAGS) ≠ f
    · rw [if_pos hl] at h
      exact absurd h (by simp)
    · rw [if_neg hl] at h
      have hb := (readIssue_ok _ _ _ _ _ _ h).2
      rw [not_ne_iff] at hl
      simpa [hl] using hb
  · rw [if_neg hseek] at h
    have hb := (readIssue_ok _ _ _ _ _ _ h).2
    -- no seek was needed, so in particular the initial
    -- `first_lba != reader_position or first_lba == 0` was false
    have hfalse : (scanTitles dvd.vob_lba_offsets f s (initialSeek dvd f)).needToSeek = false := by
      cases hx : (scanTitles dvd.vob_lba_offsets f s (initialSeek dvd f)).needToSeek
      · rfl
      · exact absurd hx hseek
    rw [scanTitles, scanFold_needToSeek] at hfalse
    have hinit : initialSeek dvd f = false := by
      simp only [Bool.or_eq_false_iff] at hfalse
      exact hfalse.1
    have hf : f = dvd.reader_position := by
      have h0 : f = dvd.reader_position ∧ ¬f = 0 := by simpa [initialSeek] using hinit
      exact h0.1
    rw [hb, hpos, ← hf]

/-! ### Properties of the backup loop -/

/-- The backup loop never touches the file under the final name, and it
never deletes the file under the temporary name. -/
theorem backupLoop_fs_invariant : ∀ (fuel : Nat) (dvd : Dvd) (dev : Device)
    (cur last : Int) (fs : FS) (chunks : List (Int × Int)) (fs' : FS)
    (chunks' : List (Int × Int)) (res : Except DvdError (Dvd × Device × Int)),
    backupLoop fuel dvd dev cur last fs chunks = some (fs', chunks', res) →
    fs'.final = fs.final ∧ (fs.tmp.isSome = true → fs'.tmp.isSome = true) := by
  intro fuel
  induction fuel with
  | zero =>
    intro dvd dev cur last fs chunks fs' chunks' res h
    rw [backupLoop] at h
    split_ifs at h
    all_goals try cases h
    all_goals exact ⟨rfl, fun hx => hx⟩
  | succ fuel ih =>
    intro dvd dev cur last fs chunks fs' chunks' res h
    rw [backupLoop] at h
    split_ifs at h with hcur
    · cases hE : (Dvd.read dvd dev cur (min BLOCK_BUFFER (last - cur + 1))).2 with
      | error e =>
        rw [hE] at h
        cases h
        exact ⟨rfl, fun hx => hx⟩
      | ok o =>
        rw [hE] at h
        dsimp only at h
        by_cases hneg : o.ret < 0
        · rw [if_pos hneg] at h
          cases h
          exact ⟨rfl, fun hx => hx⟩
        · rw [if_neg hneg] at h
          have hi := ih _ _ _ _ _ _ _ _ _ h
          refine ⟨hi.1, fun hx => hi.2 ?_⟩
          simpa using hx
    · cases h
      exact ⟨rfl, fun hx => hx⟩

/-- A successful `Dvd.read` with a positive requested count returns a
count between 1 and the request. -/
theorem Dvd.read_ok_ret_bounds (dvd : Dvd) (dev : Device) (f s : Int) (o : ReadOk)
    (hs : 1 ≤ s) (h : (Dvd.read dvd dev f s).2 = .ok o) :
    1 ≤ o.ret ∧ o.ret ≤ s := by
  rw [Dvd.read_ok_ret dvd dev f s o h]
  exact scanFold_sectors_bounds f dvd.vob_lba_offsets ⟨s, initialSeek dvd f, false, false⟩ hs

/-- With fuel at least the number of remaining sectors, the backup loop
always finishes (successfully or with a propagated error): every
successful read advances `current_lba` by at least one sector. -/
theorem backupLoop_isSome : ∀ (fuel : Nat) (dvd : Dvd) (dev : Device)
    (cur last : Int) (fs : FS) (chunks : List (Int × Int)),
    (last + 1 - cur).toNat ≤ fuel →
    (backupLoop fuel dvd dev cur last fs chunks).isSome = true := by
  intro fuel
  induction fuel with
  | zero =>
    intro dvd dev cur last fs chunks hfuel
    rw [backupLoop]
    split_ifs with hcur
    · exfalso; omega
    · rfl
  | succ fuel ih =>
    intro dvd dev cur last fs chunks hfuel
    rw [backupLoop]
    split_ifs with hcur
    · cases hE : (Dvd.read dvd dev cur (min BLOCK_BUFFER (last - cur + 1))).2 with
      | error e => rfl
      | ok o =>
        dsimp only
        by_cases hneg : o.ret < 0
        · rw [if_pos hneg]; rfl
        · rw [if_neg hneg]
          have hs1 : (1 : Int) ≤ min BLOCK_BUFFER (last - cur + 1) := by
            rw [le_min_iff]
            exact ⟨by norm_num [BLOCK_BUFFER], by omega⟩
          have hb := Dvd.read_ok_ret_bounds _ _ _ _ _ hs1 hE
          apply ih
          omega
    · rfl

/-- On success the backup loop extends the chunk log with a block that
tiles exactly the remaining range `[cur, last + 1)` and finishes at
`last + 1`. -/
theorem backupLoop_chunks : ∀ (fuel : Nat) (dvd : Dvd) (dev : Device)
    (cur last : Int) (fs : FS) (chunks : List (Int × Int)) (fs' : FS)
    (chunks' : List (Int × Int)) (d : Dvd) (v : Device) (c : Int),
    backupLoop fuel dvd dev cur last fs chunks = some (fs', chunks', .ok (d, v, c)) →
    cur ≤ last + 1 →
    c = last + 1 ∧ ∃ ext, chunks' = chunks ++ ext ∧ chunksCover cur ext (last + 1) = true := by
  intro fuel
  induction fuel with
  | zero =>
    intro dvd dev cur last fs chunks fs' chunks' d v c h hcur
    rw [backupLoop] at h
    split_ifs at h with hc
    cases h
    refine ⟨by omega, ⟨[], by simp, ?_⟩⟩
    simp [chunksCover]
    omega
  | succ fuel ih =>
    intro dvd dev cur last fs chunks fs' chunks' d v c h hcur
    rw [backupLoop] at h
    split_ifs at h with hc
    · cases hE : (Dvd.read dvd dev cur (min BLOCK_BUFFER (last - cur + 1))).2 with
      | error e =>
        rw [hE] at h
        cases h
      | ok o =>
        rw [hE] at h
        dsimp only at h
        by_cases hneg : o.ret < 0
        · rw [if_pos hneg] at h
          cases h
        · rw [if_neg hneg] at h
          have hs1 : (1 : Int) ≤ min BLOCK_BUFFER (last - cur + 1) := by
            rw [le_min_iff]
            exact ⟨by norm_num [BLOCK_BUFFER], by omega⟩
          have hb := Dvd.read_ok_ret_bounds _ _ _ _ _ hs1 hE
          have hmin : min BLOCK_BUFFER (last - cur + 1) ≤ last - cur + 1 := min_le_right _ _
          obtain ⟨hc1, ext, hext, hcov⟩ := ih _ _ _ _ _ _ _ _ _ _ _ h (by omega)
          refine ⟨hc1, ⟨(cur, o.ret) :: ext, ?_, ?_⟩⟩
          · rw [hext]
            simp
          · simp [chunksCover, hcov, hb.1]
    · cases h
      refine ⟨by omega, ⟨[], by simp, ?_⟩⟩
      simp [chunksCover]
      omega

/-! ### Properties of the title-map builder -/

/-- The builder keeps exactly the `.VOB` entries of the listing, in the
listing's order, as their `(lba, size)` pairs. -/
theorem get_vob_lbas_output : ∀ (entries : List (String × Int × Int)) (dev : Device)
    (ck : Bool) (dev' : Device) (out : List (Int × Int)),
    get_vob_lbas dev entries ck = .ok (dev', out) →
    out = (entries.filter (fun e => decide (extname e.1 = ".VOB"))).map (fun e => e.2) := by
  intro entries
  induction entries with
  | nil =>
    intro dev ck dev' out h
    rw [get_vob_lbas] at h
    cases h
    rfl
  | cons e rest ih =>
    obtain ⟨vob, lba, size⟩ := e
    intro dev ck dev' out h
    rw [get_vob_lbas] at h
    dsimp only at h
    by_cases hext : extname vob ≠ ".VOB"
    · rw [if_pos hext] at h
      rw [ih _ _ _ _ h]
      simp [List.filter_cons, hext]
    · rw [if_neg hext] at h
      rw [not_ne_iff] at hext
      by_cases hck : ck = true
      · rw [if_pos hck] at h
        by_cases hl : lba = dev.seekLand lba SEEK_KEY
        · rw [if_pos hl] at h
          cases hrec : get_vob_lbas { dev with pos := dev.seekLand lba SEEK_KEY } rest ck with
          | error e2 => rw [hrec] at h; cases h
          | ok p =>
            obtain ⟨dev2, tl⟩ := p
            rw [hrec] at h
            dsimp only at h
            cases h
            rw [ih _ _ _ _ hrec]
            simp [List.filter_cons, hext]
        · rw [if_neg hl] at h
          cases h
      · rw [if_neg hck] at h
        cases hrec : get_vob_lbas dev rest ck with
        | error e2 => rw [hrec] at h; cases h
        | ok p =>
          obtain ⟨dev2, tl⟩ := p
          rw [hrec] at h
          dsimp only at h
          cases h
          rw [ih _ _ _ _ hrec]
          simp [List.filter_cons, hext]

/-- With key cracking on, the build aborts at the first VOB whose
`SEEK_KEY` seek does not land at its LBA, with an error naming that file's
basename and that LBA; entries after it are irrelevant. -/
theorem get_vob_lbas_first_failure : ∀ (pre : List (String × Int × Int)) (dev : Device)
    (post : List (String × Int × Int)) (vob : String) (lba size : Int),
    (∀ e ∈ pre, extname e.1 = ".VOB" → dev.seekLand e.2.1 SEEK_KEY = e.2.1) →
    extname vob = ".VOB" →
    dev.seekLand lba SEEK_KEY ≠ lba →
    get_vob_lbas dev (pre ++ (vob, lba, size) :: post) true =
      .error (.keyCrack (basename vob) lba) := by
  intro pre
  induction pre with
  | nil =>
    intro dev post vob lba size hpre hvob hfail
    rw [List.nil_append, get_vob_lbas]
    dsimp only
    rw [if_neg (by simp [hvob])]
    rw [if_pos rfl]
    rw [if_neg (fun hh : lba = dev.seekLand lba SEEK_KEY => hfail hh.symm)]
  | cons e pre ih =>
    obtain ⟨v0, l0, s0⟩ := e
    intro dev post vob lba size hpre hvob hfail
    rw [List.cons_append, get_vob_lbas]
    dsimp only
    by_cases hext : extname v0 ≠ ".VOB"
    · rw [if_pos hext]
      exact ih dev post vob lba size (fun x hx => hpre x (List.mem_cons_of_mem _ hx)) hvob hfail
    · rw [if_neg hext]
      rw [not_ne_iff] at hext
      rw [if_pos rfl]
      have hland : dev.seekLand l0 SEEK_KEY = l0 :=
        hpre (v0, l0, s0) (List.mem_cons_self _ _) hext
      rw [if_pos hland.symm]
      rw [ih { dev with pos := dev.seekLand l0 SEEK_KEY } post vob lba size
        (fun x hx hx2 => hpre x (List.mem_cons_of_mem _ hx) hx2) hvob hfail]

/-- The seek that `Dvd.read` issues: present exactly when the scan says a
seek is needed, at `first_lba`, with `SEEK_KEY` when entering a title,
`SEEK_MPEG` when in a title, and no flags otherwise. -/
theorem Dvd.read_seekIssued (dvd : Dvd) (dev : Device) (f s : Int) :
    (Dvd.read dvd dev f s).1.seekIssued =
      if (scanTitles dvd.vob_lba_offsets f s (initialSeek dvd f)).needToSeek
      then some (f,
        if (scanTitles dvd.vob_lba_offsets f s (initialSeek dvd f)).enteredTitle
        then SEEK_KEY
        else if (scanTitles dvd.vob_lba_offsets f s (initialSeek dvd f)).inTitle
        then SEEK_MPEG else NOFLAGS)
      else none := by
  dsimp only [Dvd.read]
  by_cases hseek : (scanTitles dvd.vob_lba_offsets f s (initialSeek dvd f)).needToSeek = true
  · rw [if_pos hseek, if_pos hseek]
    by_cases hl : dev.seekLand f
        (if (scanTitles dvd.vob_lba_offsets f s (initialSeek dvd f)).enteredTitle = true
          then SEEK_KEY
          else if (scanTitles dvd.vob_lba_offsets f s (initialSeek dvd f)).inTitle = true
          then SEEK_MPEG else NOFLAGS) ≠ f
    · rw [if_pos hl]
    · rw [if_neg hl]
      rfl
  · rw [if_neg hseek, if_neg hseek]
    rfl

/-- When a seek is required and the device reports a landing position
other than `first_lba`, `Dvd.read` fails with the seek-mismatch error and
never issues the device read. -/
theorem Dvd.read_seek_mismatch (dvd : Dvd) (dev : Device) (f s : Int)
    (hseek : (scanTitles dvd.vob_lba_offsets f s (initialSeek dvd f)).needToSeek = true)
    (hl : dev.seekLand f
      (if (scanTitles dvd.vob_lba_offsets f s (initialSeek dvd f)).enteredTitle = true
        then SEEK_KEY
        else if (scanTitles dvd.vob_lba_offsets f s (initialSeek dvd f)).inTitle = true
        then SEEK_MPEG else NOFLAGS) ≠ f) :
    (Dvd.read dvd dev f s).2 = .error (.seekMismatch f (dev.seekLand f
      (if (scanTitles dvd.vob_lba_offsets f s (initialSeek dvd f)).enteredTitle = true
        then SEEK_KEY
        else if (scanTitles dvd.vob_lba_offsets f s (initialSeek dvd f)).inTitle = true
        then SEEK_MPEG else NOFLAGS))) ∧
      (Dvd.read dvd dev f s).1.readIssued = none := by
  refine ⟨?_, ?_⟩ <;>
  · dsimp only [Dvd.read]
    rw [if_pos hseek, if_pos hl]

/-- The scan requires a seek exactly when the cursor is elsewhere, the
target is sector 0, or some region starts at the target. -/
theorem scanTitles_needToSeek_iff (dvd : Dvd) (f s : Int) :
    (scanTitles dvd.vob_lba_offsets f s (initialSeek dvd f)).needToSeek = true ↔
      (f ≠ dvd.reader_position ∨ f = 0 ∨ ∃ r ∈ dvd.vob_lba_offsets, r.1 = f) := by
  rw [scanTitles, scanFold_needToSeek]
  simp [initialSeek, List.any_eq_true, or_assoc]

/-- The scan marks a title as entered exactly when some region starts at
the target sector. -/
theorem scanTitles_enteredTitle_iff (l : List (Int × Int)) (f s : Int) (b : Bool) :
    (scanTitles l f s b).enteredTitle = true ↔ ∃ r ∈ l, r.1 = f := by
  rw [scanTitles, scanFold_enteredTitle]
  simp [List.any_eq_true]

/-! ### Claim theorems -/

/-- Claim C1: with the title map `[(100, 50)]` (region 100..149), the
accepted call `read(149, 2)` from cursor 0 returns a count of 2, yet the
consumed range [149, 150] straddles the region's end: it is neither
entirely within one region nor entirely outside all regions.  The
clipping of `Dvd.read` uses `first_lba < titleEnd` strictly and so misses
the case `first_lba = titleEnd`, contradicting the code's own comment
that a read never mixes encrypted and unencrypted data. -/
theorem C1_read_straddles_at_title_end :
    (∃ o, (Dvd.read ⟨0, [(100, 50)]⟩ devOk 149 2).2 = .ok o ∧ o.ret = 2) ∧
      readHomogeneous [(100, 50)] 149 2 = false :=
  ⟨⟨_, rfl, rfl⟩, by decide⟩

/-- Claim C3 counterexample: in the spec's scenario (one title region
`{start 100, length 50}`, cursor at 110 after the preceding reads), the
call `read(140, 20)` does clip to 10 sectors and return 10, but it issues
the seek with `SEEK_MPEG` and the read with `READ_DECRYPT` — not with no
flags as the claim states. -/
theorem C3_counterexample_flags :
    (Dvd.read ⟨110, [(100, 50)]⟩ devOk 140 20).1 =
        ⟨some (140, SEEK_MPEG), some (10, READ_DECRYPT)⟩ ∧
      READ_DECRYPT ≠ NOFLAGS ∧ SEEK_MPEG ≠ NOFLAGS :=
  ⟨rfl, by decide, by decide⟩

/-- Claim C3 (amended): in the scenario `{totalSectors 1000, one region
(100, 50)}`, `read(140, 20)` clips the request to 10 sectors covering
[140, 149] and returns 10; the clipped range lies inside the title, so the
seek (issued because the cursor is at 110) uses `SEEK_MPEG` and the read
uses `READ_DECRYPT`. -/
theorem C3_amended_read_140 :
    ∃ o, (Dvd.read ⟨110, [(100, 50)]⟩ devOk 140 20).2 = .ok o ∧ o.ret = 10 ∧
      (Dvd.read ⟨110, [(100, 50)]⟩ devOk 140 20).1.seekIssued = some (140, SEEK_MPEG) ∧
      (Dvd.read ⟨110, [(100, 50)]⟩ devOk 140 20).1.readIssued = some (10, READ_DECRYPT) ∧
      rangeWithin 140 10 (100, 50) = true :=
  ⟨_, rfl, rfl, rfl, rfl, by decide⟩

/-- Claim C6 counterexample: with the title map `[(100, 50), (150, 50)]`
and cursor 0, `read(149, 2)` is clipped (by the second region) to the one
sector 149, which lies inside the first region, and no region starts at
149 — yet the seek is issued with no flags instead of `SEEK_MPEG`,
because the in-title check of the first region ran before the second
region's clipping shrank the range. -/
theorem C6_counterexample_seek_flag :
    (Dvd.read ⟨0, [(100, 50), (150, 50)]⟩ devOk 149 2).1.seekIssued = some (149, NOFLAGS) ∧
      (∃ o, (Dvd.read ⟨0, [(100, 50), (150, 50)]⟩ devOk 149 2).2 = .ok o ∧ o.ret = 1) ∧
      rangeWithin 149 1 (100, 50) = true ∧
      (∀ r ∈ [((100 : Int), (50 : Int)), ((150 : Int), (50 : Int))], r.1 ≠ 149) ∧
      NOFLAGS ≠ SEEK_MPEG :=
  ⟨rfl, ⟨_, rfl, rfl⟩, by decide, by decide, by decide⟩

/-- Claim C6 (amended): a device seek is issued exactly when `first_lba`
differs from the cursor, or is 0, or equals some region's start; its
target is `first_lba`; its flag is `SEEK_KEY` exactly when some region
starts at `first_lba`, else `SEEK_MPEG` exactly when the scan marked the
request in-title (the containment test runs per region against the count
as clipped so far, so a range shrunk by a later region into an earlier
region's tail gets no flag); and if the reported landing position differs
from `first_lba`, the call fails with the seek-mismatch error without
issuing the device read. -/
theorem C6_amended_seek_rule (dvd : Dvd) (dev : Device) (f s : Int) :
    ((Dvd.read dvd dev f s).1.seekIssued.isSome = true ↔
      (f ≠ dvd.reader_position ∨ f = 0 ∨ ∃ r ∈ dvd.vob_lba_offsets, r.1 = f)) ∧
    (∀ lba flg, (Dvd.read dvd dev f s).1.seekIssued = some (lba, flg) →
      lba = f ∧
      flg = (if (scanTitles dvd.vob_lba_offsets f s (initialSeek dvd f)).enteredTitle
        then SEEK_KEY
        else if (scanTitles dvd.vob_lba_offsets f s (initialSeek dvd f)).inTitle
        then SEEK_MPEG else NOFLAGS) ∧
      ((scanTitles dvd.vob_lba_offsets f s (initialSeek dvd f)).enteredTitle = true ↔
        ∃ r ∈ dvd.vob_lba_offsets, r.1 = f) ∧
      (dev.seekLand f flg ≠ f →
        (Dvd.read dvd dev f s).2 = .error (.seekMismatch f (dev.seekLand f flg)) ∧
        (Dvd.read dvd dev f s).1.readIssued = none)) := by
  constructor
  · rw [Dvd.read_seekIssued]
    by_cases hseek : (scanTitles dvd.vob_lba_offsets f s (initialSeek dvd f)).needToSeek = true
    · rw [if_pos hseek]
      simpa using (scanTitles_needToSeek_iff dvd f s).mp hseek
    · rw [if_neg hseek]
      simp only [Option.isSome_none, Bool.false_eq_true, false_iff]
      intro hcon
      exact hseek ((scanTitles_needToSeek_iff dvd f s).mpr hcon)
  · intro lba flg hsome
    rw [Dvd.read_seekIssued] at hsome
    by_cases hseek : (scanTitles dvd.vob_lba_offsets f s (initialSeek dvd f)).needToSeek = true
    · rw [if_pos hseek] at hsome
      have hlba : lba = f ∧ flg = (if (scanTitles dvd.vob_lba_offsets f s
          (initialSeek dvd f)).enteredTitle then SEEK_KEY
          else if (scanTitles dvd.vob_lba_offsets f s (initialSeek dvd f)).inTitle
          then SEEK_MPEG else NOFLAGS) := by
        cases hsome
        exact ⟨rfl, rfl⟩
      refine ⟨hlba.1, hlba.2, scanTitles_enteredTitle_iff _ f s _, fun hl => ?_⟩
      rw [hlba.2] at hl ⊢
      exact Dvd.read_seek_mismatch dvd dev f s hseek hl
    · rw [if_neg hseek] at hsome
      cases hsome

/-- Witness for claim C6's amended rule: with one region starting at 100
and a device that always lands at sector 999, `read(100, 10)` (which
enters the title, so seeks with `SEEK_KEY`) fails with the seek-mismatch
error and never issues the device read. -/
theorem C6_amended_seek_rule_witness :
    (Dvd.read ⟨5, [(100, 50)]⟩ devBadSeek 100 10).2 = .error (.seekMismatch 100 999) ∧
      (Dvd.read ⟨5, [(100, 50)]⟩ devBadSeek 100 10).1.readIssued = none :=
  ((C6_amended_seek_rule ⟨5, [(100, 50)]⟩ devBadSeek 100 10).2 100 SEEK_KEY
    rfl).2.2.2 (by decide)

/-- Claim C9: for a fixed deterministic device (`seekLand`, `readRet`,
`readBuf`) and a fixed title map, two accepted `read` calls with identical
`(first_lba, sectors)` arguments return the same count and the same
buffer, whatever the cursor position (equal to the device position) was
before each call — whether or not a reseek was triggered. -/
theorem C9_read_idempotent (offsets : List (Int × Int)) (sl : Int → Int → Int)
    (rr : Int → Int → Int → Int) (rb : Int → Int → Int → List Int)
    (p1 p2 f s : Int) (o1 o2 : ReadOk)
    (h1 : (Dvd.read ⟨p1, offsets⟩ ⟨p1, sl, rr, rb⟩ f s).2 = .ok o1)
    (h2 : (Dvd.read ⟨p2, offsets⟩ ⟨p2, sl, rr, rb⟩ f s).2 = .ok o2) :
    o1.ret = o2.ret ∧ o1.buf = o2.buf := by
  have hr1 := Dvd.read_ok_ret _ _ _ _ _ h1
  have hr2 := Dvd.read_ok_ret _ _ _ _ _ h2
  have hb1 := Dvd.read_ok_buf _ _ _ _ _ rfl h1
  have hb2 := Dvd.read_ok_buf _ _ _ _ _ rfl h2
  have hag : (scanTitles offsets f s (initialSeek ⟨p1, offsets⟩ f)).sectors =
        (scanTitles offsets f s (initialSeek ⟨p2, offsets⟩ f)).sectors ∧
      (scanTitles offsets f s (initialSeek ⟨p1, offsets⟩ f)).enteredTitle =
        (scanTitles offsets f s (initialSeek ⟨p2, offsets⟩ f)).enteredTitle ∧
      (scanTitles offsets f s (initialSeek ⟨p1, offsets⟩ f)).inTitle =
        (scanTitles offsets f s (initialSeek ⟨p2, offsets⟩ f)).inTitle := by
    rw [scanTitles, scanTitles]
    exact scanFold_agree f offsets _ _ rfl rfl rfl
  dsimp only at hr1 hr2 hb1 hb2
  constructor
  · rw [hr1, hr2, hag.1]
  · rw [hb1, hb2, hag.1, hag.2.2]

/-- Witness for claim C9: the same `read(140, 5)` issued once from cursor
0 (forcing a reseek) and once from cursor 140 (no reseek) returns the
same count and buffer. -/
theorem C9_read_idempotent_witness :
    ∃ o1 o2,
      (Dvd.read ⟨0, [(100, 50)]⟩
        ⟨0, fun lba _ => lba, fun _ n _ => n, fun pos n flg => [pos, n, flg]⟩ 140 5).2 = .ok o1 ∧
      (Dvd.read ⟨140, [(100, 50)]⟩
        ⟨140, fun lba _ => lba, fun _ n _ => n, fun pos n flg => [pos, n, flg]⟩ 140 5).2 = .ok o2 ∧
      o1.ret = o2.ret ∧ o1.buf = o2.buf :=
  ⟨_, _, rfl, rfl,
    C9_read_idempotent [(100, 50)] (fun lba _ => lba) (fun _ n _ => n)
      (fun pos n flg => [pos, n, flg]) 0 140 140 5 _ _ rfl rfl⟩

/-- Claim C10: for any requested count of at least 1 the title-scan
clipping returns a count between 1 and the request (never 0, never more);
consequently every successful read advances the backup loop by at least
one sector, so with fuel equal to the number of remaining sectors the
loop always finishes. -/
theorem C10_clip_bounds_and_termination :
    (∀ (offsets : List (Int × Int)) (f s : Int) (b : Bool), 1 ≤ s →
      1 ≤ (scanTitles offsets f s b).sectors ∧ (scanTitles offsets f s b).sectors ≤ s) ∧
    (∀ (fuel : Nat) (dvd : Dvd) (dev : Device) (cur last : Int) (fs : FS)
      (chunks : List (Int × Int)), (last + 1 - cur).toNat ≤ fuel →
      (backupLoop fuel dvd dev cur last fs chunks).isSome = true) := by
  constructor
  · intro offsets f s b hs
    rw [scanTitles]
    exact scanFold_sectors_bounds f offsets ⟨s, b, false, false⟩ hs
  · exact backupLoop_isSome

/-- Witness for claim C10: clipping `read(0, 5)` against the map
`[(100, 50)]` yields a count in [1, 5], and a 10-sector backup loop
finishes within fuel 10. -/
theorem C10_clip_bounds_and_termination_witness :
    (1 ≤ (scanTitles [((100 : Int), (50 : Int))] 0 5 true).sectors ∧
      (scanTitles [((100 : Int), (50 : Int))] 0 5 true).sectors ≤ 5) ∧
      (backupLoop 10 ⟨0, []⟩ devOk 0 9 ⟨none, none⟩ []).isSome = true :=
  ⟨C10_clip_bounds_and_termination.1 [(100, 50)] 0 5 true (by decide),
    C10_clip_bounds_and_termination.2 10 ⟨0, []⟩ devOk 0 9 ⟨none, none⟩ [] (by decide)⟩

/-- Claim C4: over one full successful `create_backup` run, the
`(first_lba, returned count)` chunks of the `read` calls tile the sector
range `[0, space_size)` exactly once — strictly ascending, gap-free,
repeat-free, starting at 0 — and the final `current_lba` is exactly
`space_size`. -/
theorem C4_backup_chunks_cover (fuel : Nat) (dvd : Dvd) (dev : Device)
    (entries : List (String × Int × Int)) (space_size : Int) (fs fs' : FS)
    (chunks : List (Int × Int)) (d : Dvd) (v : Device) (c : Int)
    (hspace : 0 ≤ space_size)
    (h : Dvd.create_backup fuel dvd dev entries space_size fs =
      some (fs', chunks, .ok (d, v, c))) :
    chunksCover 0 chunks space_size = true ∧ c = space_size := by
  rw [Dvd.create_backup] at h
  cases hG : get_vob_lbas dev entries true with
  | error e =>
    rw [hG] at h
    cases h
  | ok p =>
    obtain ⟨dev1, offsets⟩ := p
    rw [hG] at h
    dsimp only at h
    cases hL : backupLoop fuel { dvd with vob_lba_offsets := offsets } dev1 0
        (space_size - 1) { fs with tmp := some [] } [] with
    | none =>
      rw [hL] at h
      cases h
    | some q =>
      obtain ⟨fs2, chunks2, res⟩ := q
      rw [hL] at h
      cases res with
      | error e =>
        dsimp only at h
        cases h
      | ok t =>
        obtain ⟨dvd2, dev2, cur⟩ := t
        dsimp only at h
        cases h
        obtain ⟨hc1, ext, hext, hcov⟩ :=
          backupLoop_chunks fuel _ _ 0 (space_size - 1) _ [] _ _ _ _ _ hL (by omega)
        have hsp : space_size - 1 + 1 = space_size := by omega
        rw [hsp] at hc1 hcov
        simp only [List.nil_append] at hext
        subst hext
        exact ⟨hcov, hc1⟩

/-- Witness for claim C4: a concrete successful 1000-sector backup with
one title region (100, 50) produces chunks that tile [0, 1000) exactly
once and ends at 1000. -/
theorem C4_backup_chunks_cover_witness :
    ∃ fs d v, Dvd.create_backup 20 ⟨0, []⟩ devOk [("/VIDEO_TS/VTS_01_1.VOB", 100, 50)]
        1000 ⟨none, none⟩ =
      some (fs, [(0, 100), (100, 50), (150, 128), (278, 128), (406, 128), (534, 128),
        (662, 128), (790, 128), (918, 82)], .ok (d, v, 1000)) ∧
      chunksCover 0 [((0 : Int), (100 : Int)), (100, 50), (150, 128), (278, 128), (406, 128),
        (534, 128), (662, 128), (790, 128), (918, 82)] 1000 = true :=
  ⟨_, _, _, rfl,
    (C4_backup_chunks_cover 20 ⟨0, []⟩ devOk [("/VIDEO_TS/VTS_01_1.VOB", 100, 50)]
      1000 ⟨none, none⟩ _ _ _ _ _ (by decide) rfl).1⟩

/-- Claim C5: whenever `create_backup` ends with a propagated error — at
key cracking, seeking, or reading — and no file existed beforehand under
the final name, none exists afterwards either: the rename onto the final
name happens only after the read loop completed successfully. -/
theorem C5_error_never_exposes_final (fuel : Nat) (dvd : Dvd) (dev : Device)
    (entries : List (String × Int × Int)) (space_size : Int) (fs fs' : FS)
    (chunks : List (Int × Int)) (e : DvdError)
    (hfin : fs.final = none)
    (h : Dvd.create_backup fuel dvd dev entries space_size fs =
      some (fs', chunks, .error e)) :
    fs'.final = none := by
  rw [Dvd.create_backup] at h
  cases hG : get_vob_lbas dev entries true with
  | error e2 =>
    rw [hG] at h
    dsimp only at h
    cases h
    exact hfin
  | ok p =>
    obtain ⟨dev1, offsets⟩ := p
    rw [hG] at h
    dsimp only at h
    cases hL : backupLoop fuel { dvd with vob_lba_offsets := offsets } dev1 0
        (space_size - 1) { fs with tmp := some [] } [] with
    | none =>
      rw [hL] at h
      cases h
    | some q =>
      obtain ⟨fs2, chunks2, res⟩ := q
      rw [hL] at h
      cases res with
      | error e3 =>
        dsimp only at h
        cases h
        have hinv := backupLoop_fs_invariant fuel _ _ _ _ _ _ _ _ _ hL
        rw [hinv.1]
        exact hfin
      | ok t =>
        obtain ⟨dvd2, dev2, cur⟩ := t
        dsimp only at h
        cases h

/-- Witness for claim C5: a run whose first read fails leaves no file
under the final name. -/
theorem C5_error_never_exposes_final_witness :
    Dvd.create_backup 20 ⟨0, []⟩ devBadRead [] 10 ⟨none, none⟩ =
      some (⟨some [], none⟩, [], .error (.shortRead 0 10)) ∧
      (FS.mk (some []) none).final = none :=
  ⟨rfl, C5_error_never_exposes_final 20 ⟨0, []⟩ devBadRead [] 10 ⟨none, none⟩ _ _ _
    rfl rfl⟩

/-- Claim C2 counterexample: a run whose first read fails propagates the
error while the temporary sink file survives on disk with its contents —
it is not deleted, contradicting the claim. -/
theorem C2_counterexample_tmp_survives :
    Dvd.create_backup 20 ⟨0, []⟩ devBadRead [] 10 ⟨none, none⟩ =
      some (⟨some [], none⟩, [], .error (.shortRead 0 10)) ∧
      (FS.mk (some []) none).tmp ≠ none :=
  ⟨rfl, by decide⟩

/-- Claim C2 (amended): if any error propagates out of the main reading
loop of `create_backup` after the temporary sink has been opened, the
error is re-raised without deleting the temporary sink — the partial
artifact survives under the temporary name, though nothing is created
under the final name. -/
theorem C2_amended_error_keeps_tmp (fuel : Nat) (dvd : Dvd) (dev : Device)
    (entries : List (String × Int × Int)) (space_size : Int) (fs fs' : FS)
    (chunks : List (Int × Int)) (e : DvdError) (dev1 : Device)
    (offsets : List (Int × Int))
    (hG : get_vob_lbas dev entries true = .ok (dev1, offsets))
    (h : Dvd.create_backup fuel dvd dev entries space_size fs =
      some (fs', chunks, .error e)) :
    fs'.tmp.isSome = true ∧ fs'.final = fs.final := by
  rw [Dvd.create_backup, hG] at h
  dsimp only at h
  cases hL : backupLoop fuel { dvd with vob_lba_offsets := offsets } dev1 0
      (space_size - 1) { fs with tmp := some [] } [] with
  | none =>
    rw [hL] at h
    cases h
  | some q =>
    obtain ⟨fs2, chunks2, res⟩ := q
    rw [hL] at h
    cases res with
    | error e3 =>
      dsimp only at h
      cases h
      have hinv := backupLoop_fs_invariant fuel _ _ _ _ _ _ _ _ _ hL
      exact ⟨hinv.2 rfl, hinv.1⟩
    | ok t =>
      obtain ⟨dvd2, dev2, cur⟩ := t
      dsimp only at h
      cases h

/-- Witness for claim C2's amended statement: in the failing run of the
counterexample, the temporary file survives and the final slot is
untouched. -/
theorem C2_amended_error_keeps_tmp_witness :
    (FS.mk (some []) none).tmp.isSome = true ∧
      (FS.mk (some []) none).final = (FS.mk none none).final :=
  C2_amended_error_keeps_tmp 20 ⟨0, []⟩ devBadRead [] 10 ⟨none, none⟩ _ _ _ _ _
    rfl rfl

/-- Claim C7: when cracking the key of a VOB title fails (its `SEEK_KEY`
seek does not land at the title's start), `create_backup` propagates an
error naming that title's file and LBA; the build aborts at the first
failing title (entries before it crack fine, entries after it are never
reached), no read chunk is produced, and — starting from an empty
filesystem — neither a temporary nor a final file is created: the sink is
opened only after all keys have been cracked. -/
theorem C7_key_crack_aborts_before_sink (fuel : Nat) (dvd : Dvd) (dev : Device)
    (pre post : List (String × Int × Int)) (vob : String) (lba size space_size : Int)
    (hpre : ∀ e ∈ pre, extname e.1 = ".VOB" → dev.seekLand e.2.1 SEEK_KEY = e.2.1)
    (hvob : extname vob = ".VOB")
    (hfail : dev.seekLand lba SEEK_KEY ≠ lba) :
    Dvd.create_backup fuel dvd dev (pre ++ (vob, lba, size) :: post) space_size
        ⟨none, none⟩ =
      some (⟨none, none⟩, [], .error (.keyCrack (basename vob) lba)) := by
  rw [Dvd.create_backup,
    get_vob_lbas_first_failure pre dev post vob lba size hpre hvob hfail]

/-- Witness for claim C7: with three titles of which the second fails to
crack (the device mis-seeks exactly at sector 200), the run aborts with
the error naming `VTS_02_1.VOB` at sector 200, with no chunk read and no
file created. -/
theorem C7_key_crack_aborts_before_sink_witness :
    Dvd.create_backup 20 ⟨0, []⟩
        ⟨0, fun lba _ => if lba = 200 then 0 else lba, fun _ n _ => n, fun _ _ _ => []⟩
        [("/VIDEO_TS/VTS_01_1.VOB", 100, 50), ("/VIDEO_TS/VTS_02_1.VOB", 200, 50),
          ("/VIDEO_TS/VTS_03_1.VOB", 300, 50)] 1000 ⟨none, none⟩ =
      some (⟨none, none⟩, [], .error (.keyCrack "VTS_02_1.VOB" 200)) := by
  have h := C7_key_crack_aborts_before_sink 20 ⟨0, []⟩
    ⟨0, fun lba _ => if lba = 200 then 0 else lba, fun _ n _ => n, fun _ _ _ => []⟩
    [("/VIDEO_TS/VTS_01_1.VOB", 100, 50)]
    [("/VIDEO_TS/VTS_03_1.VOB", 300, 50)] "/VIDEO_TS/VTS_02_1.VOB" 200 50 1000
    (by decide) (by decide) (by decide)
  exact h

/-- Claim C8 counterexample: the builder does not sort: fed a listing with
two VOB entries in descending LBA order it returns the map
`[(200, 10), (100, 10)]`, which is not ascending/non-overlapping. -/
theorem C8_counterexample_unsorted :
    (∃ d, get_vob_lbas devOk
        [("/VIDEO_TS/VTS_02_1.VOB", 200, 10), ("/VIDEO_TS/VTS_01_1.VOB", 100, 10)] false =
      .ok (d, [(200, 10), (100, 10)])) ∧
      titleMapOrdered [((200 : Int), (10 : Int)), ((100 : Int), (10 : Int))] = false :=
  ⟨⟨_, rfl⟩, by decide⟩

/-- Claim C8 (amended): the builder preserves the directory listing's
order, keeping exactly its `.VOB` entries as `(start, length)` pairs; the
built map is therefore sorted ascending and pairwise non-overlapping
exactly when the listing's VOB entries are. -/
theorem C8_amended_order_from_listing (entries : List (String × Int × Int))
    (dev : Device) (ck : Bool) (dev' : Device) (out : List (Int × Int))
    (h : get_vob_lbas dev entries ck = .ok (dev', out)) :
    out = (entries.filter (fun e => decide (extname e.1 = ".VOB"))).map (fun e => e.2) ∧
      (titleMapOrdered
          ((entries.filter (fun e => decide (extname e.1 = ".VOB"))).map (fun e => e.2)) =
        true → titleMapOrdered out = true) := by
  have ho := get_vob_lbas_output entries dev ck dev' out h
  exact ⟨ho, fun hx => ho ▸ hx⟩

/-- Witness for claim C8's amended statement: an ascending listing yields
the same ascending, non-overlapping map. -/
theorem C8_amended_order_from_listing_witness :
    (∃ d, get_vob_lbas devOk
        [("/VIDEO_TS/VTS_01_1.VOB", 100, 10), ("/VIDEO_TS/VTS_02_1.VOB", 200, 10)] false =
      .ok (d, [(100, 10), (200, 10)])) ∧
      titleMapOrdered [((100 : Int), (10 : Int)), ((200 : Int), (10 : Int))] = true :=
  ⟨⟨_, rfl⟩,
    (C8_amended_order_from_listing
      [("/VIDEO_TS/VTS_01_1.VOB", 100, 10), ("/VIDEO_TS/VTS_02_1.VOB", 200, 10)]
      devOk false _ _ rfl).2 (by decide)⟩

end Slipstream
